import Mathlib

/-!
Shallow embedding of `src/lib/video-storage.ts` (class `VideoStorage`), the
local recording store of the eloquence repository, together with proofs of
the specification claims about it.

Modelling choices:
* IndexedDB durable state is a list of records (`db : Option (List StoredRecording)`,
  `none` before the database handle is opened).  The primary key is the
  `id` field (`keyPath: 'id'`), so `add` fails with a constraint error on a
  duplicate id, `put` overwrites the record holding the same id, `delete`
  removes it.
* `URL.createObjectURL` returns a process-local handle; we model a handle as
  a token drawn from a monotone counter paired with the blob bytes it was
  derived from, so freshness of handles is expressible.
* Each asynchronous operation is a function from the store state (plus the
  outcome of the underlying database requests, passed as booleans: `true`
  means the request succeeded) to a pair of an `Except` result and the next
  state.  A rejected promise is `Except.error`.
* `Blob` byte content is a `List Nat`; `Date` timestamps are `Nat`
  (milliseconds, as compared via `getTime`).
* JavaScript `Array.prototype.sort` is specified to produce a stable sorted
  permutation; we model it with `List.insertionSort`, which is stable.
-/

/-- Byte content of a `Blob`. -/
def BlobBytes : Type := List Nat
deriving DecidableEq

/-- A handle produced by `URL.createObjectURL`: a process-local token plus
the blob bytes it was derived from. -/
structure BlobUrl where
  token : Nat
  data : BlobBytes
deriving DecidableEq

/-- The `'video' | 'audio'` union of the `type` field. -/
inductive MediaType where
  | video
  | audio
deriving DecidableEq

/-- The `StoredRecording` interface of `video-storage.ts`. -/
structure StoredRecording where
  id : String
  blob : BlobBytes
  url : BlobUrl
  type : MediaType
  duration : Nat
  timestamp : Nat
  analysis : Option String
  title : Option String
deriving DecidableEq

/-- `Omit<StoredRecording, 'id'>`: the argument of `saveRecording`. -/
structure RecordingWithoutId where
  blob : BlobBytes
  url : BlobUrl
  type : MediaType
  duration : Nat
  timestamp : Nat
  analysis : Option String
  title : Option String
deriving DecidableEq

/-- `Partial<StoredRecording>`: the `updates` argument of `updateRecording`.
A field that is `none` is absent from the object; for the already optional
fields `analysis` and `title`, `some v` means the property is present with
value `v`. -/
structure RecordingUpdates where
  id : Option String := none
  blob : Option BlobBytes := none
  url : Option BlobUrl := none
  type : Option MediaType := none
  duration : Option Nat := none
  timestamp : Option Nat := none
  analysis : Option (Option String) := none
  title : Option (Option String) := none
deriving DecidableEq

/-- Errors surfaced by the store (the spec names them `StorageUnavailable`,
`NotFound`, `ReadError`/`WriteError`; `requestError` stands for an opaque
underlying database request error, `constraintError` for the `add` key
constraint violation, `notInitialized` for the `Database not initialized`
throw). -/
inductive StorageError where
  | storageUnavailable
  | notInitialized
  | requestError
  | constraintError
  | notFound
deriving DecidableEq

/-- Process-wide state: the lazily opened database handle with its contents,
plus the counter supplying fresh object-URL tokens. -/
structure VideoStorageState where
  db : Option (List StoredRecording)
  nextUrl : Nat
deriving DecidableEq

/-- `URL.createObjectURL(blob)`: issues the next token and bumps the counter. -/
def createObjectURL (s : VideoStorageState) (b : BlobBytes) :
    BlobUrl × VideoStorageState :=
  (⟨s.nextUrl, b⟩, { s with nextUrl := s.nextUrl + 1 })

/-- `VideoStorage.init`.  `openOk` is the outcome of the `indexedDB.open`
request (consulted only when no handle is cached).  On first success the
`onupgradeneeded` handler creates the empty object store. -/
def init (s : VideoStorageState) (openOk : Bool) :
    Except StorageError Unit × VideoStorageState :=
  match s.db with
  | some _ => (Except.ok (), s)
  | none =>
    if openOk then (Except.ok (), { s with db := some [] })
    else (Except.error StorageError.storageUnavailable, s)

/-- `{ ...recording, id }`: attach the generated id. -/
def withId (rec : RecordingWithoutId) (newId : String) : StoredRecording :=
  { id := newId, blob := rec.blob, url := rec.url, type := rec.type,
    duration := rec.duration, timestamp := rec.timestamp,
    analysis := rec.analysis, title := rec.title }

/-- `VideoStorage.saveRecording`.  `newId` stands for the generated
`recording-${Date.now()}-${random}` identifier; `addOk` is the outcome of
the `store.add` request (which additionally fails with a constraint error
when the key already exists). -/
def saveRecording (s : VideoStorageState) (openOk addOk : Bool)
    (rec : RecordingWithoutId) (newId : String) :
    Except StorageError String × VideoStorageState :=
  match init s openOk with
  | (Except.error e, s1) => (Except.error e, s1)
  | (Except.ok _, s1) =>
    match s1.db with
    | none => (Except.error StorageError.notInitialized, s1)
    | some l =>
      if addOk then
        if l.any (fun r => r.id == newId) then
          (Except.error StorageError.constraintError, s1)
        else
          (Except.ok newId, { s1 with db := some (l ++ [withId rec newId]) })
      else (Except.error StorageError.requestError, s1)

/-- `VideoStorage.getRecording`.  `getOk` is the outcome of the `store.get`
request; on a hit the blob URL is recreated before resolving. -/
def getRecording (s : VideoStorageState) (openOk getOk : Bool) (id : String) :
    Except StorageError (Option StoredRecording) × VideoStorageState :=
  match init s openOk with
  | (Except.error e, s1) => (Except.error e, s1)
  | (Except.ok _, s1) =>
    match s1.db with
    | none => (Except.error StorageError.notInitialized, s1)
    | some l =>
      if getOk then
        match l.find? (fun r => r.id == id) with
        | some r =>
          (Except.ok (some { r with url := (createObjectURL s1 r.blob).1 }),
            (createObjectURL s1 r.blob).2)
        | none => (Except.ok none, s1)
      else (Except.error StorageError.requestError, s1)

/-- Traversal order of the `timestamp` index (`index.getAll()`): ascending
by index key, ties broken by the primary key `id`. -/
def indexOrder (a b : StoredRecording) : Prop :=
  a.timestamp < b.timestamp ∨ (a.timestamp = b.timestamp ∧ a.id ≤ b.id)

instance : DecidableRel indexOrder := fun a b =>
  inferInstanceAs (Decidable (a.timestamp < b.timestamp ∨
    (a.timestamp = b.timestamp ∧ a.id ≤ b.id)))

/-- The order produced by the comparator
`(a, b) => new Date(b.timestamp).getTime() - new Date(a.timestamp).getTime()`:
`a` sorts no later than `b` when the comparator is nonpositive, i.e.
`b.timestamp ≤ a.timestamp` (descending by capture time). -/
def capturedDesc (a b : StoredRecording) : Prop :=
  b.timestamp ≤ a.timestamp

instance : DecidableRel capturedDesc := fun a b =>
  inferInstanceAs (Decidable (b.timestamp ≤ a.timestamp))

instance : IsTotal StoredRecording capturedDesc :=
  ⟨fun a b => (Nat.le_total b.timestamp a.timestamp).imp id id⟩

instance : IsTrans StoredRecording capturedDesc :=
  ⟨fun _ _ _ hab hbc => Nat.le_trans hbc hab⟩

/-- The `.map` in `getAllRecordings`: recreate a blob URL for each record in
traversal order, threading the token counter. -/
def assignUrls : List StoredRecording → Nat → List StoredRecording × Nat
  | [], n => ([], n)
  | r :: rs, n =>
    ({ r with url := ⟨n, r.blob⟩ } :: (assignUrls rs (n + 1)).1,
      (assignUrls rs (n + 1)).2)

/-- `VideoStorage.getAllRecordings`.  `getOk` is the outcome of the
`index.getAll()` request; records arrive in index order, get fresh blob
URLs, and are then sorted by timestamp descending (stable sort). -/
def getAllRecordings (s : VideoStorageState) (openOk getOk : Bool) :
    Except StorageError (List StoredRecording) × VideoStorageState :=
  match init s openOk with
  | (Except.error e, s1) => (Except.error e, s1)
  | (Except.ok _, s1) =>
    match s1.db with
    | none => (Except.error StorageError.notInitialized, s1)
    | some l =>
      if getOk then
        (Except.ok (List.insertionSort capturedDesc
            (assignUrls (List.insertionSort indexOrder l) s1.nextUrl).1),
          { s1 with nextUrl := (assignUrls (List.insertionSort indexOrder l) s1.nextUrl).2 })
      else (Except.error StorageError.requestError, s1)

/-- `{ ...existingRecording, ...updates }`: shallow merge, a present field
of `updates` replaces the existing value. -/
def mergeUpdates (existing : StoredRecording) (u : RecordingUpdates) :
    StoredRecording :=
  { id := u.id.getD existing.id,
    blob := u.blob.getD existing.blob,
    url := u.url.getD existing.url,
    type := u.type.getD existing.type,
    duration := u.duration.getD existing.duration,
    timestamp := u.timestamp.getD existing.timestamp,
    analysis := u.analysis.getD existing.analysis,
    title := u.title.getD existing.title }

/-- `store.put(rec)`: overwrite the record stored under key `rec.id`, or
insert it when that key is absent. -/
def putRecord (l : List StoredRecording) (rec : StoredRecording) :
    List StoredRecording :=
  if l.any (fun r => r.id == rec.id) then
    l.map (fun r => if r.id == rec.id then rec else r)
  else l ++ [rec]

/-- `VideoStorage.updateRecording`.  `getOk` and `putOk` are the outcomes of
the inner `store.get` and `store.put` requests. -/
def updateRecording (s : VideoStorageState) (openOk getOk putOk : Bool)
    (id : String) (updates : RecordingUpdates) :
    Except StorageError Unit × VideoStorageState :=
  match init s openOk with
  | (Except.error e, s1) => (Except.error e, s1)
  | (Except.ok _, s1) =>
    match s1.db with
    | none => (Except.error StorageError.notInitialized, s1)
    | some l =>
      if getOk then
        match l.find? (fun r => r.id == id) with
        | none => (Except.error StorageError.notFound, s1)
        | some existing =>
          if putOk then
            (Except.ok (),
              { s1 with db := some (putRecord l (mergeUpdates existing updates)) })
          else (Except.error StorageError.requestError, s1)
      else (Except.error StorageError.requestError, s1)

/-- `VideoStorage.deleteRecording`.  `delOk` is the outcome of the
`store.delete` request (which succeeds whether or not the key is present). -/
def deleteRecording (s : VideoStorageState) (openOk delOk : Bool) (id : String) :
    Except StorageError Unit × VideoStorageState :=
  match init s openOk with
  | (Except.error e, s1) => (Except.error e, s1)
  | (Except.ok _, s1) =>
    match s1.db with
    | none => (Except.error StorageError.notInitialized, s1)
    | some l =>
      if delOk then
        (Except.ok (), { s1 with db := some (l.filter (fun r => r.id != id)) })
      else (Except.error StorageError.requestError, s1)

/-- `VideoStorage.clearAllRecordings`.  `clearOk` is the outcome of the
`store.clear` request. -/
def clearAllRecordings (s : VideoStorageState) (openOk clearOk : Bool) :
    Except StorageError Unit × VideoStorageState :=
  match init s openOk with
  | (Except.error e, s1) => (Except.error e, s1)
  | (Except.ok _, s1) =>
    match s1.db with
    | none => (Except.error StorageError.notInitialized, s1)
    | some _ =>
      if clearOk then (Except.ok (), { s1 with db := some [] })
      else (Except.error StorageError.requestError, s1)

/-- Forget the transient url handle of a record (for comparing read results
with durable contents). -/
def eraseUrl (r : StoredRecording) : StoredRecording :=
  { r with url := ⟨0, []⟩ }

/-! ### Helper lemmas -/

theorem find?_absent (l : List StoredRecording) (id : String)
    (h : ∀ r ∈ l, r.id ≠ id) : l.find? (fun r => r.id == id) = none :=
  List.find?_eq_none.mpr (fun r hr => by simp [h r hr])

theorem find?_append_single (l : List StoredRecording) (x : StoredRecording)
    (id : String) (h : ∀ r ∈ l, r.id ≠ id) (hx : x.id = id) :
    (l ++ [x]).find? (fun r => r.id == id) = some x := by
  rw [List.find?_append, find?_absent l id h]
  simp [List.find?_cons, hx]

theorem any_id_absent (l : List StoredRecording) (id : String)
    (h : ∀ r ∈ l, r.id ≠ id) : l.any (fun r => r.id == id) = false := by
  simp only [List.any_eq_false]
  intro r hr
  simp [h r hr]

theorem any_id_present (l : List StoredRecording) (r : StoredRecording)
    (hr : r ∈ l) : l.any (fun x => x.id == r.id) = true :=
  List.any_eq_true.mpr ⟨r, hr, by simp⟩

/-- A record-level map that preserves ids commutes with lookup by id. -/
theorem find?_map_id_preserving (l : List StoredRecording)
    (f : StoredRecording → StoredRecording) (hf : ∀ r, (f r).id = r.id)
    (i : String) :
    (l.map f).find? (fun r => r.id == i) =
      (l.find? (fun r => r.id == i)).map f := by
  rw [List.find?_map]
  have hp : ((fun r => r.id == i) ∘ f) = (fun r => r.id == i) := by
    funext r
    show ((f r).id == i) = (r.id == i)
    rw [hf r]
  rw [hp]

/-- In a store with no duplicate ids, two members sharing an id are equal. -/
theorem eq_of_mem_of_same_id {l : List StoredRecording}
    (hnodup : (l.map (fun r => r.id)).Nodup) {a b : StoredRecording}
    (ha : a ∈ l) (hb : b ∈ l) (hid : a.id = b.id) : a = b :=
  List.inj_on_of_nodup_map hnodup ha hb hid

/-! ### Sample data used by witnesses and counterexamples -/

def sampleRec : StoredRecording :=
  { id := "a", blob := [1, 2], url := ⟨0, [1, 2]⟩, type := MediaType.video,
    duration := 3, timestamp := 5, analysis := none, title := none }

def sampleState : VideoStorageState :=
  { db := some [sampleRec], nextUrl := 7 }

/-! ### C6: update on a missing id -/

/-- C6: for every id under which no record exists, `update(id, partial)`
fails with `NotFound` (for any partial fields), and the failed call leaves
the entire stored set unchanged. -/
theorem update_missing_notFound (s : VideoStorageState)
    (l : List StoredRecording) (id : String) (u : RecordingUpdates)
    (hdb : s.db = some l) (habs : ∀ r ∈ l, r.id ≠ id) :
    updateRecording s true true true id u =
      (Except.error StorageError.notFound, s) := by
  simp [updateRecording, init, hdb, find?_absent l id habs]

theorem update_missing_notFound_witness :
    updateRecording sampleState true true true "zz"
        { analysis := some (some "x") } =
      (Except.error StorageError.notFound, sampleState) :=
  update_missing_notFound sampleState [sampleRec] "zz"
    { analysis := some (some "x") } rfl (by decide)

/-! ### C7: idempotent delete -/

/-- C7: `delete(id)` always succeeds; it removes the record under `id` if
present and keeps every other record, and deleting an absent id leaves the
state unchanged. -/
theorem delete_idempotent (s : VideoStorageState) (l : List StoredRecording)
    (id : String) (hdb : s.db = some l) :
    (deleteRecording s true true id).1 = Except.ok () ∧
    (deleteRecording s true true id).2.db =
      some (l.filter (fun r => r.id != id)) ∧
    ((∀ r ∈ l, r.id ≠ id) → deleteRecording s true true id = (Except.ok (), s)) := by
  have h1 : deleteRecording s true true id =
      (Except.ok (), { s with db := some (l.filter (fun r => r.id != id)) }) := by
    simp [deleteRecording, init, hdb]
  refine ⟨by rw [h1], by rw [h1], fun habs => ?_⟩
  have hf : l.filter (fun r => r.id != id) = l :=
    List.filter_eq_self.mpr (fun r hr => by simp [habs r hr])
  rw [h1, hf]
  cases s
  simp only [VideoStorageState.mk.injEq] at hdb ⊢
  simp [hdb]

theorem delete_idempotent_witness :
    deleteRecording sampleState true true "zz" = (Except.ok (), sampleState) :=
  (delete_idempotent sampleState [sampleRec] "zz" rfl).2.2 (by decide)

/-! ### C10: update with no fields is an identity -/

/-- C10: for every id under which a record exists, `update(id, {})` (empty
partial fields) succeeds and leaves the whole store state unchanged. -/
theorem update_empty_identity (s : VideoStorageState)
    (l : List StoredRecording) (id : String) (existing : StoredRecording)
    (hdb : s.db = some l) (hnodup : (l.map (fun r => r.id)).Nodup)
    (hfind : l.find? (fun r => r.id == id) = some existing) :
    updateRecording s true true true id { } = (Except.ok (), s) := by
  have hmerge : mergeUpdates existing { } = existing := rfl
  have hmem : existing ∈ l := List.mem_of_find?_eq_some hfind
  have hany : l.any (fun r => r.id == existing.id) = true :=
    any_id_present l existing hmem
  have hmap : l.map (fun r => if r.id == existing.id then existing else r) = l := by
    have : ∀ r ∈ l, (if r.id == existing.id then existing else r) = r := by
      intro r hr
      by_cases h : r.id = existing.id
      · have : r = existing := eq_of_mem_of_same_id hnodup hr hmem h
        simp [this]
      · simp [h]
    calc l.map (fun r => if r.id == existing.id then existing else r)
        = l.map (fun r => r) := List.map_congr_left (fun a ha => this a ha)
      _ = l := List.map_id' l
  have hput : putRecord l (mergeUpdates existing { }) = l := by
    rw [hmerge, putRecord, hany]
    simp only [if_true]
    exact hmap
  simp only [updateRecording, init, hdb, hfind]
  rw [hput]
  cases s
  simp only [VideoStorageState.mk.injEq] at hdb ⊢
  simp [hdb]

theorem update_empty_identity_witness :
    updateRecording sampleState true true true "a" { } =
      (Except.ok (), sampleState) :=
  update_empty_identity sampleState [sampleRec] "a" sampleRec rfl
    (by decide) (by decide)

/-! ### C1: save then get round-trip -/

/-- C1: saving a record with a non-empty blob under a fresh generated id and
then reading that id back returns a record equal to the input in every field
except `id` (the generated one) and `url` (a freshly created handle carrying
the same blob bytes); in particular the blob bytes are bit-identical. -/
theorem save_get_roundtrip (s : VideoStorageState) (l : List StoredRecording)
    (rec : RecordingWithoutId) (newId : String)
    (hdb : s.db = some l) (_hblob : rec.blob ≠ [])
    (hfresh : ∀ r ∈ l, r.id ≠ newId) :
    (saveRecording s true true rec newId).1 = Except.ok newId ∧
    (getRecording (saveRecording s true true rec newId).2 true true newId).1 =
      Except.ok (some
        { id := newId, blob := rec.blob,
          url := ⟨(saveRecording s true true rec newId).2.nextUrl, rec.blob⟩,
          type := rec.type, duration := rec.duration,
          timestamp := rec.timestamp, analysis := rec.analysis,
          title := rec.title }) := by
  have hsave : saveRecording s true true rec newId =
      (Except.ok newId, { s with db := some (l ++ [withId rec newId]) }) := by
    simp [saveRecording, init, hdb, any_id_absent l newId hfresh]
  refine ⟨by rw [hsave], ?_⟩
  rw [hsave]
  simp [getRecording, init, createObjectURL, withId,
    find?_absent l newId hfresh]

def sampleInput : RecordingWithoutId :=
  { blob := [3, 4, 5], url := ⟨9, [3, 4, 5]⟩, type := MediaType.audio,
    duration := 12, timestamp := 20, analysis := none, title := some "t" }

theorem save_get_roundtrip_witness :
    (saveRecording sampleState true true sampleInput "b").1 =
      Except.ok "b" ∧
    (getRecording (saveRecording sampleState true true sampleInput "b").2
        true true "b").1 =
      Except.ok (some
        { id := "b", blob := [3, 4, 5],
          url := ⟨(saveRecording sampleState true true sampleInput "b").2.nextUrl,
            [3, 4, 5]⟩,
          type := MediaType.audio, duration := 12, timestamp := 20,
          analysis := none, title := some "t" }) :=
  save_get_roundtrip sampleState [sampleRec] sampleInput "b" rfl
    (by decide) (by decide)

/-! ### C8: repeated and implicit initialization -/

/-- C8: once the store is open, `init` succeeds without altering the state,
whatever the outcome of a further open request would be; and every operation
run on a not-yet-opened state (with the open succeeding) behaves exactly as
the same operation run after an explicit successful `init`. -/
theorem init_idempotent_implicit :
    (∀ (s : VideoStorageState) (l : List StoredRecording) (b : Bool),
      s.db = some l → init s b = (Except.ok (), s)) ∧
    (∀ s addOk rec newId, saveRecording s true addOk rec newId =
      saveRecording (init s true).2 true addOk rec newId) ∧
    (∀ s getOk i, getRecording s true getOk i =
      getRecording (init s true).2 true getOk i) ∧
    (∀ s getOk, getAllRecordings s true getOk =
      getAllRecordings (init s true).2 true getOk) ∧
    (∀ s getOk putOk i u, updateRecording s true getOk putOk i u =
      updateRecording (init s true).2 true getOk putOk i u) ∧
    (∀ s delOk i, deleteRecording s true delOk i =
      deleteRecording (init s true).2 true delOk i) ∧
    (∀ s clearOk, clearAllRecordings s true clearOk =
      clearAllRecordings (init s true).2 true clearOk) := by
  refine ⟨fun s l b hdb => by simp [init, hdb], ?_, ?_, ?_, ?_, ?_, ?_⟩
  all_goals
    intro s
    cases hdb : s.db with
    | some l =>
      simp [init, saveRecording, getRecording, getAllRecordings,
        updateRecording, deleteRecording, clearAllRecordings, hdb]
    | none =>
      simp [init, saveRecording, getRecording, getAllRecordings,
        updateRecording, deleteRecording, clearAllRecordings, hdb]

theorem init_idempotent_implicit_witness :
    init sampleState true = (Except.ok (), sampleState) :=
  init_idempotent_implicit.1 sampleState [sampleRec] true rfl

/-! ### C9: failures are propagated, never swallowed -/

/-- C9: when the underlying open request fails the store (and any operation
calling it implicitly) rejects with `storageUnavailable`; when an underlying
database request of an operation fails, the operation rejects with that
request error and leaves the state unchanged; no error is discarded and no
operation resolves successfully when its underlying request failed. -/
theorem errors_propagate :
    (∀ s : VideoStorageState, s.db = none →
      init s false = (Except.error StorageError.storageUnavailable, s)) ∧
    (∀ (s : VideoStorageState) rec newId, s.db = none →
      saveRecording s false true rec newId =
        (Except.error StorageError.storageUnavailable, s)) ∧
    (∀ (s : VideoStorageState) l rec newId, s.db = some l →
      saveRecording s true false rec newId =
        (Except.error StorageError.requestError, s)) ∧
    (∀ (s : VideoStorageState) l i, s.db = some l →
      getRecording s true false i =
        (Except.error StorageError.requestError, s)) ∧
    (∀ (s : VideoStorageState) l, s.db = some l →
      getAllRecordings s true false =
        (Except.error StorageError.requestError, s)) ∧
    (∀ (s : VideoStorageState) l i u, s.db = some l →
      updateRecording s true false true i u =
        (Except.error StorageError.requestError, s)) ∧
    (∀ (s : VideoStorageState) l i u existing, s.db = some l →
      l.find? (fun r => r.id == i) = some existing →
      updateRecording s true true false i u =
        (Except.error StorageError.requestError, s)) ∧
    (∀ (s : VideoStorageState) l i, s.db = some l →
      deleteRecording s true false i =
        (Except.error StorageError.requestError, s)) ∧
    (∀ (s : VideoStorageState) l, s.db = some l →
      clearAllRecordings s true false =
        (Except.error StorageError.requestError, s)) := by
  refine ⟨fun s h => by simp [init, h],
    fun s rec newId h => by simp [saveRecording, init, h],
    fun s l rec newId h => by simp [saveRecording, init, h],
    fun s l i h => by simp [getRecording, init, h],
    fun s l h => by simp [getAllRecordings, init, h],
    fun s l i u h => by simp [updateRecording, init, h],
    fun s l i u existing h hfind => by simp [updateRecording, init, h, hfind],
    fun s l i h => by simp [deleteRecording, init, h],
    fun s l h => by simp [clearAllRecordings, init, h]⟩

theorem errors_propagate_witness :
    getRecording sampleState true false "a" =
      (Except.error StorageError.requestError, sampleState) :=
  errors_propagate.2.2.2.1 sampleState [sampleRec] "a" rfl

/-! ### C3: the blob is not write-once under update -/

/-- C3 counterexample: `update(id, {blob})` does replace the stored blob:
updating the sample record with a blob field overwrites the blob stored
under its id. -/
theorem update_blob_replaced_cex :
    (updateRecording sampleState true true true "a" { blob := some [9] }).1 =
      Except.ok () ∧
    (updateRecording sampleState true true true "a" { blob := some [9] }).2.db =
      some [{ sampleRec with blob := [9] }] ∧
    sampleRec.blob ≠ [9] :=
  ⟨rfl, rfl, by decide⟩

/-- C3 amended: the blob stored under any id is preserved by `update`
whenever the partial fields include neither `blob` nor `id`; a partial
containing `blob` (or redirecting `id`) can replace a stored blob. -/
theorem update_preserves_blob (s : VideoStorageState)
    (l : List StoredRecording) (i : String) (u : RecordingUpdates)
    (l2 : List StoredRecording) (hdb : s.db = some l)
    (hnodup : (l.map (fun r => r.id)).Nodup)
    (hb : u.blob = none) (hi : u.id = none)
    (hres : (updateRecording s true true true i u).2.db = some l2) :
    ∀ j, (l2.find? (fun r => r.id == j)).map (fun r => r.blob) =
      (l.find? (fun r => r.id == j)).map (fun r => r.blob) := by
  cases hf : l.find? (fun r => r.id == i) with
  | none =>
    have hrun : updateRecording s true true true i u =
        (Except.error StorageError.notFound, s) := by
      simp [updateRecording, init, hdb, hf]
    rw [hrun] at hres
    rw [hdb] at hres
    intro j
    rw [Option.some_inj.mp hres]
  | some existing =>
    have hrun : updateRecording s true true true i u =
        (Except.ok (), { s with
          db := some (putRecord l (mergeUpdates existing u)) }) := by
      simp [updateRecording, init, hdb, hf]
    rw [hrun] at hres
    have hl2 : l2 = putRecord l (mergeUpdates existing u) :=
      (Option.some_inj.mp hres).symm
    have hmid : (mergeUpdates existing u).id = existing.id := by
      simp [mergeUpdates, hi]
    have hmblob : (mergeUpdates existing u).blob = existing.blob := by
      simp [mergeUpdates, hb]
    have hmem : existing ∈ l := List.mem_of_find?_eq_some hf
    have hany : l.any (fun r => r.id == (mergeUpdates existing u).id) = true := by
      rw [hmid]
      exact any_id_present l existing hmem
    have hput : putRecord l (mergeUpdates existing u) =
        l.map (fun r =>
          if r.id == (mergeUpdates existing u).id then mergeUpdates existing u
          else r) := by
      rw [putRecord, if_pos hany]
    have hfid : ∀ r : StoredRecording,
        ((fun r => if r.id == (mergeUpdates existing u).id
          then mergeUpdates existing u else r) r).id = r.id := by
      intro r
      by_cases h : r.id = (mergeUpdates existing u).id
      · simp [h]
      · simp [h]
    intro j
    rw [hl2, hput, find?_map_id_preserving l _ hfid j]
    cases hg : l.find? (fun r => r.id == j) with
    | none => simp
    | some r0 =>
      simp only [Option.map_some']
      congr 1
      by_cases h : r0.id = (mergeUpdates existing u).id
      · have hr0 : r0 = existing :=
          eq_of_mem_of_same_id hnodup (List.mem_of_find?_eq_some hg) hmem
            (h.trans hmid)
        simp [hr0, hmid, hmblob]
      · simp [h]

theorem update_preserves_blob_witness :
    ([{ sampleRec with analysis := some "x" }].find?
        (fun r => r.id == "a")).map (fun r => r.blob) =
      ([sampleRec].find? (fun r => r.id == "a")).map (fun r => r.blob) :=
  update_preserves_blob sampleState [sampleRec] "a"
    { analysis := some (some "x") } [{ sampleRec with analysis := some "x" }]
    rfl (by decide) rfl rfl rfl "a"

/-! ### C4: the displayUrl is persisted by save, regenerated on read -/

def freshInput : RecordingWithoutId :=
  { blob := [9], url := ⟨42, [9]⟩, type := MediaType.audio, duration := 2,
    timestamp := 10, analysis := none, title := none }

def emptyOpenState : VideoStorageState := { db := some [], nextUrl := 100 }

/-- C4 counterexample: `save` does write the caller-supplied displayUrl
handle into durable storage — the record stored in the database carries the
`url` field the caller passed in. -/
theorem save_persists_displayUrl_cex :
    (saveRecording emptyOpenState true true freshInput "x").2.db =
      some [withId freshInput "x"] ∧
    (withId freshInput "x").url = freshInput.url ∧
    freshInput.url = ⟨42, [9]⟩ :=
  ⟨rfl, rfl, rfl⟩

/-- Every record produced by the url-assignment pass of `getAllRecordings`
carries a handle freshly derived from its own blob, with a token at least
the counter the pass started from. -/
theorem assignUrls_fresh (L : List StoredRecording) :
    ∀ (n : Nat) (x : StoredRecording), x ∈ (assignUrls L n).1 →
      x.url.data = x.blob ∧ n ≤ x.url.token := by
  induction L with
  | nil => intro n x hx; exact (List.not_mem_nil x hx).elim
  | cons r rs ih =>
    intro n x hx
    simp only [assignUrls, List.mem_cons] at hx
    cases hx with
    | inl h => subst h; exact ⟨rfl, Nat.le_refl n⟩
    | inr h =>
      obtain ⟨hd, hle⟩ := ih (n + 1) x h
      exact ⟨hd, Nat.le_trans (Nat.le_succ n) hle⟩

/-- C4 amended: `save` persists the record verbatim, displayUrl included,
but every read regenerates the handle: `get` returns the stored record with
a handle freshly created from the stored blob at that read (advancing the
handle counter), and every record returned by `getAll` carries a handle
derived from its own blob whose token was issued during that read (no
handle from before the call is reused). -/
theorem read_regenerates_displayUrl (s : VideoStorageState)
    (l : List StoredRecording) (i : String) (r : StoredRecording)
    (hdb : s.db = some l)
    (hfind : l.find? (fun x => x.id == i) = some r) :
    (getRecording s true true i).1 =
      Except.ok (some { r with url := ⟨s.nextUrl, r.blob⟩ }) ∧
    (getRecording s true true i).2.nextUrl = s.nextUrl + 1 ∧
    (∀ out, (getAllRecordings s true true).1 = Except.ok out →
      ∀ x ∈ out, x.url.data = x.blob ∧ s.nextUrl ≤ x.url.token) := by
  refine ⟨by simp [getRecording, init, hdb, hfind, createObjectURL],
    by simp [getRecording, init, hdb, hfind, createObjectURL], ?_⟩
  intro out hout
  have hrun : (getAllRecordings s true true).1 =
      Except.ok (List.insertionSort capturedDesc
        (assignUrls (List.insertionSort indexOrder l) s.nextUrl).1) := by
    simp [getAllRecordings, init, hdb]
  rw [hrun] at hout
  intro x hx
  have hx2 : x ∈ (assignUrls (List.insertionSort indexOrder l) s.nextUrl).1 := by
    have hperm := List.perm_insertionSort capturedDesc
      (assignUrls (List.insertionSort indexOrder l) s.nextUrl).1
    rw [← Except.ok.injEq _ _ |>.mp hout] at hx
    exact hperm.mem_iff.mp hx
  exact assignUrls_fresh _ s.nextUrl x hx2

theorem read_regenerates_displayUrl_witness :
    (getRecording sampleState true true "a").1 =
      Except.ok (some { sampleRec with url := ⟨sampleState.nextUrl, sampleRec.blob⟩ }) ∧
    (getRecording sampleState true true "a").2.nextUrl =
      sampleState.nextUrl + 1 ∧
    (∀ out, (getAllRecordings sampleState true true).1 = Except.ok out →
      ∀ x ∈ out, x.url.data = x.blob ∧ sampleState.nextUrl ≤ x.url.token) :=
  read_regenerates_displayUrl sampleState [sampleRec] "a" sampleRec rfl rfl

/-! ### C5: shallow merge writes back under the merged id -/

def recA : StoredRecording :=
  { id := "a", blob := [1], url := ⟨0, [1]⟩, type := MediaType.video,
    duration := 1, timestamp := 1, analysis := some "origA", title := none }

def recB : StoredRecording :=
  { id := "b", blob := [2], url := ⟨0, [2]⟩, type := MediaType.video,
    duration := 2, timestamp := 2, analysis := some "origB", title := none }

def twoState : VideoStorageState := { db := some [recA, recB], nextUrl := 0 }

def idStealUpdate : RecordingUpdates := { id := some "b", duration := some 99 }

/-- C5 counterexample: when the partial fields contain `id`, the merged
record is written under the merged id, not the addressed one: updating
record "a" with `{id: "b", duration: 99}` succeeds, leaves the record under
"a" without the new duration, and overwrites the other stored record "b". -/
theorem update_id_redirect_cex :
    (updateRecording twoState true true true "a" idStealUpdate).1 =
      Except.ok () ∧
    (updateRecording twoState true true true "a" idStealUpdate).2.db =
      some [recA, mergeUpdates recA idStealUpdate] ∧
    recB ∉ [recA, mergeUpdates recA idStealUpdate] ∧
    [recA, mergeUpdates recA idStealUpdate].find? (fun r => r.id == "a") =
      some recA ∧
    recA.duration ≠ 99 :=
  ⟨rfl, rfl, by decide, rfl, by decide⟩

/-- Running `updateRecording` on an open store when the addressed record
exists and the partial fields do not contain `id`: the merged record
replaces the stored one under the same id. -/
theorem update_run (s : VideoStorageState) (l : List StoredRecording)
    (i : String) (existing : StoredRecording) (u : RecordingUpdates)
    (hdb : s.db = some l)
    (hfind : l.find? (fun r => r.id == i) = some existing)
    (hi : u.id = none) :
    updateRecording s true true true i u =
      (Except.ok (), { s with db := some (l.map (fun r =>
        if r.id == i then mergeUpdates existing u else r)) }) := by
  have hexid : existing.id = i := by
    have h := List.find?_some hfind
    simpa using h
  have hmem := List.mem_of_find?_eq_some hfind
  have hmid : (mergeUpdates existing u).id = i := by
    simp [mergeUpdates, hi, hexid]
  have hany : l.any (fun r => r.id == (mergeUpdates existing u).id) = true :=
    List.any_eq_true.mpr ⟨existing, hmem, by simp [hmid, hexid]⟩
  have hput : putRecord l (mergeUpdates existing u) =
      l.map (fun r => if r.id == i then mergeUpdates existing u else r) := by
    rw [putRecord, if_pos hany, hmid]
  simp [updateRecording, init, hdb, hfind, hput]

/-- A replacement-at-id map does not change any record's id. -/
theorem replace_id_preserving (i : String) (m : StoredRecording)
    (hm : m.id = i) (r : StoredRecording) :
    ((fun r => if r.id == i then m else r) r).id = r.id := by
  by_cases h : r.id = i
  · simp [h, hm]
  · simp [h]

/-- C5 amended: for partial fields that do not contain `id`,
`update(id, partial)` performs the shallow merge (present fields replace,
absent fields keep the stored value), writes the merged record back under
the same id and leaves every other stored record unchanged; in particular
updating `analysisText` to "A" and then to "B" leaves it equal to "B" with
all other fields as originally saved.  (A partial containing `id` instead
writes under the new id, as the counterexample shows.) -/
theorem update_shallow_merge (s : VideoStorageState)
    (l : List StoredRecording) (i : String) (existing : StoredRecording)
    (u : RecordingUpdates) (hdb : s.db = some l)
    (hfind : l.find? (fun r => r.id == i) = some existing)
    (hi : u.id = none) :
    updateRecording s true true true i u =
      (Except.ok (), { s with db := some (l.map (fun r =>
        if r.id == i then mergeUpdates existing u else r)) }) ∧
    (mergeUpdates existing u).id = i ∧
    (mergeUpdates existing u).blob = u.blob.getD existing.blob ∧
    (mergeUpdates existing u).url = u.url.getD existing.url ∧
    (mergeUpdates existing u).type = u.type.getD existing.type ∧
    (mergeUpdates existing u).duration = u.duration.getD existing.duration ∧
    (mergeUpdates existing u).timestamp = u.timestamp.getD existing.timestamp ∧
    (mergeUpdates existing u).analysis = u.analysis.getD existing.analysis ∧
    (mergeUpdates existing u).title = u.title.getD existing.title ∧
    (∀ r ∈ l, r.id ≠ i →
      r ∈ l.map (fun r => if r.id == i then mergeUpdates existing u else r)) ∧
    (∃ l2, (updateRecording (updateRecording s true true true i
          { analysis := some (some "A") }).2 true true true i
          { analysis := some (some "B") }).2.db = some l2 ∧
      l2.find? (fun r => r.id == i) =
        some { existing with analysis := some "B" }) := by
  have hexid : existing.id = i := by
    have h := List.find?_some hfind
    simpa using h
  have hmidA : (mergeUpdates existing { analysis := some (some "A") }).id = i :=
    hexid
  refine ⟨update_run s l i existing u hdb hfind hi, ?_, rfl, rfl, rfl, rfl,
    rfl, rfl, rfl, ?_, ?_⟩
  · simp [mergeUpdates, hi, hexid]
  · intro r hr hne
    exact List.mem_map.mpr ⟨r, hr, by simp [hne]⟩
  · have h1 := update_run s l i existing { analysis := some (some "A") }
      hdb hfind rfl
    have hs1 : (updateRecording s true true true i
        { analysis := some (some "A") }).2 =
        { s with db := some (l.map (fun r =>
          if r.id == i then mergeUpdates existing { analysis := some (some "A") }
          else r)) } := by rw [h1]
    have hfind1 : (l.map (fun r =>
        if r.id == i then mergeUpdates existing { analysis := some (some "A") }
        else r)).find? (fun r => r.id == i) =
        some (mergeUpdates existing { analysis := some (some "A") }) := by
      rw [find?_map_id_preserving l _ (replace_id_preserving i _ hmidA) i,
        hfind]
      simp [hexid]
    have h2 := update_run
      { s with db := some (l.map (fun r =>
          if r.id == i then mergeUpdates existing { analysis := some (some "A") }
          else r)) }
      (l.map (fun r =>
        if r.id == i then mergeUpdates existing { analysis := some (some "A") }
        else r))
      i (mergeUpdates existing { analysis := some (some "A") })
      { analysis := some (some "B") } rfl hfind1 rfl
    refine ⟨_, by rw [hs1, h2], ?_⟩
    have hmid2 : (mergeUpdates
        (mergeUpdates existing { analysis := some (some "A") })
        { analysis := some (some "B") }).id = i := hexid
    rw [find?_map_id_preserving _ _ (replace_id_preserving i _ hmid2) i,
      hfind1]
    simp [hmidA, mergeUpdates, hexid]

theorem update_shallow_merge_witness :
    (updateRecording twoState true true true "a"
        { analysis := some (some "N") } =
      (Except.ok (), { twoState with db := some ([recA, recB].map (fun r =>
        if r.id == "a"
        then mergeUpdates recA { analysis := some (some "N") } else r)) }) ∧
    (mergeUpdates recA { analysis := some (some "N") }).id = "a" ∧
    (mergeUpdates recA { analysis := some (some "N") }).blob =
      (RecordingUpdates.blob { analysis := some (some "N") }).getD recA.blob ∧
    (mergeUpdates recA { analysis := some (some "N") }).url =
      (RecordingUpdates.url { analysis := some (some "N") }).getD recA.url ∧
    (mergeUpdates recA { analysis := some (some "N") }).type =
      (RecordingUpdates.type { analysis := some (some "N") }).getD recA.type ∧
    (mergeUpdates recA { analysis := some (some "N") }).duration =
      (RecordingUpdates.duration { analysis := some (some "N") }).getD
        recA.duration ∧
    (mergeUpdates recA { analysis := some (some "N") }).timestamp =
      (RecordingUpdates.timestamp { analysis := some (some "N") }).getD
        recA.timestamp ∧
    (mergeUpdates recA { analysis := some (some "N") }).analysis =
      (RecordingUpdates.analysis { analysis := some (some "N") }).getD
        recA.analysis ∧
    (mergeUpdates recA { analysis := some (some "N") }).title =
      (RecordingUpdates.title { analysis := some (some "N") }).getD
        recA.title ∧
    (∀ r ∈ [recA, recB], r.id ≠ "a" →
      r ∈ [recA, recB].map (fun r =>
        if r.id == "a"
        then mergeUpdates recA { analysis := some (some "N") } else r)) ∧
    (∃ l2, (updateRecording (updateRecording twoState true true true "a"
          { analysis := some (some "A") }).2 true true true "a"
          { analysis := some (some "B") }).2.db = some l2 ∧
      l2.find? (fun r => r.id == "a") =
        some { recA with analysis := some "B" })) :=
  update_shallow_merge twoState [recA, recB] "a" recA
    { analysis := some (some "N") } rfl rfl rfl

/-! ### C2: getAll lists everything, ordered by capture time descending -/

/-- The url-assignment pass changes only the transient url handles. -/
theorem assignUrls_map_eraseUrl : ∀ (L : List StoredRecording) (n : Nat),
    ((assignUrls L n).1).map eraseUrl = L.map eraseUrl
  | [], _ => rfl
  | r :: rs, n => by
    simp only [assignUrls, List.map_cons, assignUrls_map_eraseUrl rs (n + 1)]
    rfl

/-- C2: on an open store, `getAll` resolves with a list that is (up to the
regenerated transient urls) a permutation of every stored record, sorted by
`timestamp` descending; in particular a store holding exactly three records
saved in order with capture times t1 < t2 < t3 is listed as [t3, t2, t1]. -/
theorem getAll_sorted_descending (s : VideoStorageState)
    (l : List StoredRecording) (hdb : s.db = some l) :
    ∃ out, (getAllRecordings s true true).1 = Except.ok out ∧
      (out.map eraseUrl).Perm (l.map eraseUrl) ∧
      List.Sorted capturedDesc out ∧
      (∀ a b c, l = [a, b, c] → a.timestamp < b.timestamp →
        b.timestamp < c.timestamp →
        out.map (fun r => r.id) = [c.id, b.id, a.id] ∧
        out.map (fun r => r.timestamp) =
          [c.timestamp, b.timestamp, a.timestamp]) := by
  refine ⟨List.insertionSort capturedDesc
    (assignUrls (List.insertionSort indexOrder l) s.nextUrl).1, ?_, ?_, ?_, ?_⟩
  · simp [getAllRecordings, init, hdb]
  · have h1 := (List.perm_insertionSort capturedDesc
      (assignUrls (List.insertionSort indexOrder l) s.nextUrl).1).map eraseUrl
    rw [assignUrls_map_eraseUrl] at h1
    exact h1.trans ((List.perm_insertionSort indexOrder l).map eraseUrl)
  · exact List.sorted_insertionSort capturedDesc _
  · intro a b c hl hab hbc
    subst hl
    have hidx : List.insertionSort indexOrder [a, b, c] = [a, b, c] := by
      simp only [List.insertionSort, List.orderedInsert_nil]
      rw [List.orderedInsert_of_le indexOrder [] (Or.inl hbc),
        List.orderedInsert_of_le indexOrder [c] (Or.inl hab)]
    rw [hidx]
    have hnba : ¬ b.timestamp ≤ a.timestamp := Nat.not_le.mpr hab
    have hncb : ¬ c.timestamp ≤ b.timestamp := Nat.not_le.mpr hbc
    have hnca : ¬ c.timestamp ≤ a.timestamp :=
      Nat.not_le.mpr (Nat.lt_trans hab hbc)
    constructor <;>
      simp [assignUrls, List.insertionSort, List.orderedInsert,
        capturedDesc, hnba, hncb, hnca]

def tsRec (i : String) (t : Nat) : StoredRecording :=
  { id := i, blob := [t], url := ⟨0, [t]⟩, type := MediaType.video,
    duration := 1, timestamp := t, analysis := none, title := none }

def tripleState : VideoStorageState :=
  { db := some [tsRec "r1" 10, tsRec "r2" 20, tsRec "r3" 30], nextUrl := 0 }

theorem getAll_sorted_descending_witness :
    ∃ out, (getAllRecordings tripleState true true).1 = Except.ok out ∧
      (out.map eraseUrl).Perm
        ([tsRec "r1" 10, tsRec "r2" 20, tsRec "r3" 30].map eraseUrl) ∧
      List.Sorted capturedDesc out ∧
      (∀ a b c, [tsRec "r1" 10, tsRec "r2" 20, tsRec "r3" 30] = [a, b, c] →
        a.timestamp < b.timestamp → b.timestamp < c.timestamp →
        out.map (fun r => r.id) = [c.id, b.id, a.id] ∧
        out.map (fun r => r.timestamp) =
          [c.timestamp, b.timestamp, a.timestamp]) :=
  getAll_sorted_descending tripleState
    [tsRec "r1" 10, tsRec "r2" 20, tsRec "r3" 30] rfl
